import Mathlib

set_option maxRecDepth 100000

/-!
Verification development for the member-reconciliation logic of the
GSuiteDirSync-AEGEE repository.

The Python sources are embedded shallowly:

* Python strings are modelled as lists of characters (the record fields
  handled by the matching logic are ASCII email addresses and names);
  str.lower is a characterwise Char.toLower.
* The records handled by the scripts are modelled as structures carrying
  exactly the fields the matching and reporting logic reads.  The remaining
  dataclass fields of MyAEGEEUser (ids, timestamps, flags, ...) are never
  read by any matching or reporting code and are omitted.
* difflib.SequenceMatcher(None, a, b).ratio() is embedded as an exact
  rational 2*M/T where M is the total size of the Ratcliff/Obershelp
  matching blocks and T the sum of the lengths; the junk heuristics are
  inactive for the inputs at hand (names far shorter than 200 characters),
  so find_longest_match returns the longest matching block, earliest in a
  and then earliest in b, as documented.
* A dict access that can raise KeyError is modelled in the Option monad
  (none is a raised KeyError aborting the pass).
-/

/-- Embedding of the Python expression s.lower() applied to an email string;
the addresses handled by the scripts are ASCII, where str.lower agrees with
a characterwise Char.toLower. -/
def pyLower (s : List Char) : List Char := s.map Char.toLower

/-- Characters of the anchored pattern of the re.sub call in the sync
scripts, the suffix being rewritten. -/
def gmailSuffix : List Char := "@gmail.com".data

/-- Characters of the replacement suffix of the re.sub call. -/
def googlemailSuffix : List Char := "@googlemail.com".data

/-- Embedding of re.sub rewriting an at-gmail.com ending of an email to
at-googlemail.com; the pattern is anchored at the end, so at most one
replacement happens, and a string not ending in the suffix is returned
unchanged. -/
def gmailRewrite (e : List Char) : List Char :=
  if e.drop (e.length - gmailSuffix.length) = gmailSuffix then
    e.take (e.length - gmailSuffix.length) ++ googlemailSuffix
  else e

/-- MyAEGEE user record (the fields read by the sync logic). -/
structure MyAEGEEUser where
  email : List Char
  first_name : List Char
  last_name : List Char
deriving DecidableEq, Repr

/-- MyAEGEE roster membership record wrapping a user. -/
structure MyAEGEEMember where
  user : MyAEGEEUser
deriving DecidableEq, Repr

/-- Directory group membership record as returned when listing a group:
it carries an id and a single email and no name. -/
structure GSuiteMember where
  id : List Char
  email : List Char
deriving DecidableEq, Repr

/-- One entry of the emails list of a directory user. -/
structure EmailEntry where
  address : List Char
deriving DecidableEq, Repr

/-- The name sub-record of a directory user. -/
structure NameRec where
  fullName : List Char
deriving DecidableEq, Repr

/-- Directory user record (the fields read by the sync logic). -/
structure GSuiteUser where
  id : List Char
  primaryEmail : List Char
  name : NameRec
  emails : List EmailEntry
deriving DecidableEq, Repr

/-- The fixed exclusion list EXTRA_EXCLUDED of the package script
gsuitedirsync_aegee/myaegee_sync.py. -/
def EXTRA_EXCLUDED : List (List Char) :=
  ["admin@aegee-muenchen.de".data,
   "archive@aegee-muenchen.de".data,
   "events@aegee-muenchen.de".data,
   "european.affairs@aegee-muenchen.de".data,
   "externalrelations@aegee-muenchen.de".data,
   "info@aegee-muenchen.de".data,
   "internalrelations@aegee-muenchen.de".data,
   "it@aegee-muenchen.de".data,
   "publicrelations@aegee-muenchen.de".data,
   "president@aegee-muenchen.de".data,
   "projectmanager@aegee-muenchen.de".data,
   "secretary@aegee-muenchen.de".data,
   "su@aegee-muenchen.de".data,
   "treasurer@aegee-muenchen.de".data]

/-- The per-record test of the members_sync pass of
gsuitedirsync_aegee/myaegee_sync.py (line 91): member email and group email
compared lowercased, or the lowercased member email with its gmail suffix
rewritten compared to the lowercased group email. -/
def groupEmailMatch (m : MyAEGEEMember) (g : GSuiteMember) : Bool :=
  decide (pyLower m.user.email = pyLower g.email) ||
    decide (gmailRewrite (pyLower m.user.email) = pyLower g.email)

/-- The missing list built by the first loop of members_sync: roster
members for which no group record passes groupEmailMatch, collected in
roster order. -/
def membersMissing (roster : List MyAEGEEMember) (group : List GSuiteMember) :
    List MyAEGEEMember :=
  roster.filter (fun m => !(group.any (fun g => groupEmailMatch m g)))

/-- The extra list built by the second loop of members_sync: group records
whose email is not in EXTRA_EXCLUDED and which match no roster member,
collected in group order. -/
def membersExtra (roster : List MyAEGEEMember) (group : List GSuiteMember) :
    List GSuiteMember :=
  group.filter (fun g =>
    !(decide (g.email ∈ EXTRA_EXCLUDED)) &&
      !(roster.any (fun m => groupEmailMatch m g)))

/-- Length of the longest common run at the heads of the two lists. -/
def commonLen : List Char → List Char → Nat
  | a :: as, b :: bs => if a = b then commonLen as bs + 1 else 0
  | _, _ => 0

/-- Embedding of SequenceMatcher.find_longest_match on whole slices with no
junk: the triple (i, j, k) of the longest matching block, with the earliest
start in a and, among those, the earliest start in b (the documented
guarantee); (0, 0, 0) when the lists share no character. -/
def findLongest (a b : List Char) : Nat × Nat × Nat :=
  (List.range a.length).foldl (fun best i =>
    (List.range b.length).foldl (fun best j =>
      let k := commonLen (a.drop i) (b.drop j)
      if best.2.2 < k then (i, j, k) else best) best) (0, 0, 0)

/-- Fuel-indexed recursion computing the total size of the matching blocks
of get_matching_blocks: take the longest block, then recurse on the slices
left and right of it.  Each recursive call strictly shortens the first
list, so fuel a.length + 1 always suffices. -/
def matchTotalF : Nat → List Char → List Char → Nat
  | 0, _, _ => 0
  | fuel + 1, a, b =>
    let r := findLongest a b
    if r.2.2 = 0 then 0
    else
      matchTotalF fuel (a.take r.1) (b.take r.2.1) + r.2.2 +
        matchTotalF fuel (a.drop (r.1 + r.2.2)) (b.drop (r.2.1 + r.2.2))

/-- Total size M of the matching blocks of SequenceMatcher on a and b. -/
def matchTotal (a b : List Char) : Nat := matchTotalF (a.length + 1) a b

/-- Embedding of SequenceMatcher.ratio(): 2*M/T as an exact rational,
with ratio 1 on two empty strings, following difflib. -/
def pyRatio (a b : List Char) : ℚ :=
  if a.length + b.length = 0 then 1
  else 2 * (matchTotal a b : ℚ) / ((a.length : ℚ) + (b.length : ℚ))

/-- The f-string joining first and last name with a space. -/
def memberFullName (m : MyAEGEEMember) : List Char :=
  m.user.first_name ++ [' '] ++ m.user.last_name

/-- The email_match test of the actives_sync pass (line 131): some
directory user has an emails entry whose address equals the member email
exactly (no lowercasing, no rewrite in this pass). -/
def activesEmailMatch (m : MyAEGEEMember) (users : List GSuiteUser) : Bool :=
  users.any (fun u => u.emails.any (fun e => decide (m.user.email = e.address)))

/-- The name_match test of the actives_sync pass (line 132): some directory
user whose fullName has similarity ratio strictly above 0.9 with the
member name. -/
def activesNameMatch (m : MyAEGEEMember) (users : List GSuiteUser) : Bool :=
  users.any (fun u => decide (9/10 < pyRatio (memberFullName m) u.name.fullName))

/-- The missing list built by the first loop of actives_sync: roster
members with neither an email match nor a name match, in roster order. -/
def activesMissing (roster : List MyAEGEEMember) (users : List GSuiteUser) :
    List MyAEGEEMember :=
  roster.filter (fun m => !(activesEmailMatch m users) && !(activesNameMatch m users))

/-- The extra list built by the second loop of actives_sync: directory
users none of whose addresses is excluded, matching no roster member by
email or by name, in input order. -/
def activesExtra (roster : List MyAEGEEMember) (users : List GSuiteUser) :
    List GSuiteUser :=
  users.filter (fun u =>
    let userEmails := u.emails.map (fun e => e.address)
    let excluded := userEmails.any (fun e => decide (e ∈ EXTRA_EXCLUDED))
    let emailM := roster.any (fun m => userEmails.any (fun e => decide (m.user.email = e)))
    let nameM := roster.any (fun m => decide (9/10 < pyRatio (memberFullName m) u.name.fullName))
    !excluded && (!emailM && !nameM))

/-- The actives_missing list built by the third loop of actives_sync:
directory users whose id appears on no record of the actives group. -/
def activesGroupMissing (users : List GSuiteUser) (actives : List GSuiteMember) :
    List GSuiteUser :=
  users.filter (fun u => !(actives.any (fun a => decide (a.id = u.id))))

/-- Lexicographic comparison of two character lists by code point, the
order Python uses to compare strings. -/
def strLe : List Char → List Char → Bool
  | [], _ => true
  | _ :: _, [] => false
  | a :: as, b :: bs => if a = b then strLe as bs else decide (a < b)

/-- Embedding of Python sorted(l, key=...): a stable sort by the key under
the string order. -/
def pySortBy {α : Type} (key : α → List Char) (l : List α) : List α :=
  l.mergeSort (fun x y => strLe (key x) (key y))

/-- Order in which print_users prints a list of roster members: sorted by
the member user email. -/
def printMembersOrder (l : List MyAEGEEMember) : List MyAEGEEMember :=
  pySortBy (fun m => m.user.email) l

/-- Order in which print_users prints a list of directory users: sorted by
primaryEmail. -/
def printUsersOrder (l : List GSuiteUser) : List GSuiteUser :=
  pySortBy (fun u => u.primaryEmail) l

/-- Order in which print_users prints a list of group records: sorted by
email. -/
def printGroupOrder (l : List GSuiteMember) : List GSuiteMember :=
  pySortBy (fun g => g.email) l

/-- The per-record test of members_sync in the legacy top-level script
myaegee_sync.py (line 60): same shape as the package test but with no
lowercasing on either side. -/
def legacyGroupEmailMatch (m : MyAEGEEMember) (g : GSuiteMember) : Bool :=
  decide (m.user.email = g.email) ||
    decide (gmailRewrite m.user.email = g.email)

/-- The missing list of the legacy members_sync. -/
def legacyMembersMissing (roster : List MyAEGEEMember) (group : List GSuiteMember) :
    List MyAEGEEMember :=
  roster.filter (fun m => !(group.any (fun g => legacyGroupEmailMatch m g)))

/-- The order in which the legacy members_sync prints the missing list
(line 65): the join runs over the missing list as built, in roster order,
with no sorting. -/
def legacyMembersPrintOrder (roster : List MyAEGEEMember) (group : List GSuiteMember) :
    List MyAEGEEMember :=
  legacyMembersMissing roster group

/-- Raw user dict of the dict-based scripts: any field may be absent. -/
structure RawUser where
  email : Option (List Char)
  first_name : Option (List Char)
  last_name : Option (List Char)
deriving DecidableEq, Repr

/-- Raw roster member dict: the user sub-dict may be absent. -/
structure RawMember where
  user : Option RawUser
deriving DecidableEq, Repr

/-- Raw name sub-dict of a directory user. -/
structure RawName where
  fullName : Option (List Char)
deriving DecidableEq, Repr

/-- Raw directory user dict: the emails list or the name sub-dict may be
absent, in which case the corresponding subscript raises KeyError. -/
structure RawGSuiteUser where
  emails : Option (List EmailEntry)
  name : Option RawName
deriving DecidableEq, Repr

/-- Short-circuiting any over a monadic predicate, the evaluation order of
the Python builtin any applied to a generator. -/
def anyOptM {α : Type} (f : α → Option Bool) : List α → Option Bool
  | [] => some false
  | x :: xs => do
    let b ← f x
    if b then pure true else anyOptM f xs

/-- Evaluation of a list comprehension left to right: each element is
transformed in order and a raised KeyError (none) aborts the whole
comprehension. -/
def mapOptM {α β : Type} (f : α → Option β) : List α → Option (List β)
  | [] => some []
  | x :: xs => do
    let b ← f x
    let bs ← mapOptM f xs
    pure (b :: bs)

/-- Subscript chain member user email; none is a raised KeyError. -/
def rawMemberEmail (m : RawMember) : Option (List Char) := do
  let u ← m.user
  u.email

/-- The inner any of the email_match expression for one directory user:
the emails subscript is evaluated first, then the member email per
comparison, short-circuiting on the first hit. -/
def rawEmailMatchUser (m : RawMember) (u : RawGSuiteUser) : Option Bool := do
  let es ← u.emails
  anyOptM (fun e => do
    let me ← rawMemberEmail m
    pure (decide (me = e.address))) es

/-- The email_match expression of new_members.py: the list comprehension
evaluates the guard for every directory user in order, then any over the
collected booleans. -/
def rawEmailMatch (m : RawMember) (users : List RawGSuiteUser) : Option Bool := do
  let bs ← mapOptM (rawEmailMatchUser m) users
  pure (bs.any id)

/-- Subscript chain building the member name f-string: user sub-dict, then
first_name, then last_name. -/
def rawMemberName (m : RawMember) : Option (List Char) := do
  let u ← m.user
  let f ← u.first_name
  let l ← u.last_name
  pure (f ++ [' '] ++ l)

/-- The ratio comparison for one directory user: the f-string is built
first, then the name subscripts of the user. -/
def rawNameMatchUser (m : RawMember) (u : RawGSuiteUser) : Option Bool := do
  let nm ← rawMemberName m
  let n ← u.name
  let full ← n.fullName
  pure (decide (9/10 < pyRatio nm full))

/-- The name_match expression of new_members.py, a list comprehension over
every directory user. -/
def rawNameMatch (m : RawMember) (users : List RawGSuiteUser) : Option Bool := do
  let bs ← mapOptM (rawNameMatchUser m) users
  pure (bs.any id)

/-- The matching loop of new_members.py main: per roster member compute
email_match then name_match, append the member to missing when both fail;
a raised KeyError (none) aborts the whole loop. -/
def rawActivesMissing (roster : List RawMember) (users : List RawGSuiteUser) :
    Option (List RawMember) :=
  roster.foldlM (fun acc m => do
    let em ← rawEmailMatch m users
    let nm ← rawNameMatch m users
    pure (if !em && !nm then acc ++ [m] else acc)) []

/-- Roster member of the end-to-end scenario with email a@x.de. -/
def exMemberA : MyAEGEEMember := ⟨⟨"a@x.de".data, "Ann".data, "Lee".data⟩⟩

/-- Roster member of the end-to-end scenario with email b@x.de. -/
def exMemberB : MyAEGEEMember := ⟨⟨"b@x.de".data, "Bo".data, "Ng".data⟩⟩

/-- The two-member roster of the end-to-end scenario. -/
def exRoster : List MyAEGEEMember := [exMemberA, exMemberB]

/-- The one-record directory group of the end-to-end scenario. -/
def exGroup : List GSuiteMember := [⟨"1".data, "a@x.de".data⟩]

/-- Roster member with a gmail address and a name unrelated to any
directory name. -/
def c2Member : MyAEGEEMember := ⟨⟨"c@gmail.com".data, "Aa".data, "Bb".data⟩⟩

/-- Directory user whose only address is the googlemail spelling of the
c2Member address and whose name shares only a space with the member
name. -/
def c2User : GSuiteUser :=
  ⟨"9".data, "c@googlemail.com".data, ⟨"Qq Rr".data⟩, [⟨"c@googlemail.com".data⟩]⟩

/-- Roster member whose email differs from a directory address only by the
case of one letter. -/
def c5Member : MyAEGEEMember := ⟨⟨"A@x.de".data, "Aa".data, "Bb".data⟩⟩

/-- Directory user holding the lowercased spelling of the c5Member address
and an unrelated name. -/
def c5User : GSuiteUser := ⟨"7".data, "a@x.de".data, ⟨"Qq Rr".data⟩, [⟨"a@x.de".data⟩]⟩

/-- Roster member matching c5User exactly by email. -/
def c5MemberExact : MyAEGEEMember := ⟨⟨"a@x.de".data, "Aa".data, "Bb".data⟩⟩

/-- Group record holding the lowercased spelling of the c5Member address. -/
def c5Group : GSuiteMember := ⟨"2".data, "a@x.de".data⟩

/-- Roster member whose full name has ratio exactly 9/10 with the name of
c3UserEq and no email overlap with it. -/
def c3MemberEq : MyAEGEEMember := ⟨⟨"m@x.de".data, "abcd".data, "efghi".data⟩⟩

/-- Directory user whose name abcd efghX has ratio exactly 9/10 with the
name of c3MemberEq. -/
def c3UserEq : GSuiteUser := ⟨"3".data, "z@x.de".data, ⟨"abcd efghX".data⟩, [⟨"z@x.de".data⟩]⟩

/-- Roster member Jon Smith with no email overlap with c3UserGt. -/
def c3MemberGt : MyAEGEEMember := ⟨⟨"m@x.de".data, "Jon".data, "Smith".data⟩⟩

/-- Directory user John Smith, at ratio 18/19 with the name of
c3MemberGt. -/
def c3UserGt : GSuiteUser := ⟨"4".data, "z@x.de".data, ⟨"John Smith".data⟩, [⟨"z@x.de".data⟩]⟩

/-- Group record with an email outside the exclusion list and matching no
roster member. -/
def c6Group : GSuiteMember := ⟨"5".data, "zz@q.de".data⟩

/-- Directory user with one address outside the exclusion list and
matching no roster member. -/
def c6User : GSuiteUser := ⟨"6".data, "zz@q.de".data, ⟨"Zz Yy".data⟩, [⟨"zz@q.de".data⟩]⟩

/-- Roster member with a gmail address. -/
def c4MemberG : MyAEGEEMember := ⟨⟨"user@gmail.com".data, "Aa".data, "Bb".data⟩⟩

/-- Group record with the googlemail spelling of the c4MemberG address. -/
def c4GroupGm : GSuiteMember := ⟨"1".data, "user@googlemail.com".data⟩

/-- Roster member with a googlemail address. -/
def c4MemberGm : MyAEGEEMember := ⟨⟨"user@googlemail.com".data, "Aa".data, "Bb".data⟩⟩

/-- Group record with the gmail spelling of the c4MemberGm address. -/
def c4GroupG : GSuiteMember := ⟨"1".data, "user@gmail.com".data⟩

/-- Well-formed raw roster member for the malformed-record scenario. -/
def c7Member : RawMember := ⟨some ⟨some "a@x.de".data, some "Aa".data, some "Bb".data⟩⟩

/-- Raw directory user lacking the emails field: its subscript raises. -/
def c7BadUser : RawGSuiteUser := ⟨none, some ⟨some "Qq Rr".data⟩⟩

/-- Evaluation helper for concrete ratios: with the block total and the
length sum computed on the naturals, the rational ratio is the literal
fraction. -/
theorem pyRatio_eq (a b : List Char) (M T : Nat) (hM : matchTotal a b = M)
    (hT : a.length + b.length = T) (h0 : T ≠ 0) :
    pyRatio a b = 2 * (M : ℚ) / (T : ℚ) := by
  unfold pyRatio
  rw [if_neg (by rw [hT]; exact_mod_cast h0), hM]
  have : ((a.length : ℚ) + (b.length : ℚ)) = ((T : ℚ)) := by
    rw [← hT]; push_cast; ring
  rw [this]

example : gmailRewrite "c@gmail.com".data = "c@googlemail.com".data := by decide
example : gmailRewrite "c@googlemail.com".data = "c@googlemail.com".data := by decide
example : matchTotal "Jon Smith".data "John Smith".data = 9 := by decide
example : pyRatio "Jon Smith".data "John Smith".data = 18/19 := by
  rw [pyRatio_eq _ _ 9 19 (by decide) (by decide) (by decide)]; norm_num
example : pyRatio "abcd efghi".data "abcd efghX".data = 9/10 := by
  rw [pyRatio_eq _ _ 9 20 (by decide) (by decide) (by decide)]; norm_num

/-- Appending the gmail suffix always triggers the rewrite, which replaces
it by the googlemail suffix. -/
theorem gmailRewrite_append (x : List Char) :
    gmailRewrite (x ++ gmailSuffix) = x ++ googlemailSuffix := by
  have hc : (x ++ gmailSuffix).drop ((x ++ gmailSuffix).length - gmailSuffix.length)
      = gmailSuffix := by
    rw [List.length_append]
    have h : x.length + gmailSuffix.length - gmailSuffix.length = x.length := by omega
    rw [h, List.drop_left]
  unfold gmailRewrite
  rw [if_pos hc, List.length_append]
  have h : x.length + gmailSuffix.length - gmailSuffix.length = x.length := by omega
  rw [h, List.take_left]

/-- A string ending in the googlemail suffix does not end in the gmail
suffix. -/
theorem googlemail_drop_ne (x : List Char) :
    (x ++ googlemailSuffix).drop ((x ++ googlemailSuffix).length - gmailSuffix.length)
      ≠ gmailSuffix := by
  have hg : googlemailSuffix.length = 15 := by decide
  have hs : gmailSuffix.length = 10 := by decide
  rw [List.length_append, hg, hs]
  have h : x.length + 15 - 10 = x.length + 5 := by omega
  rw [h, List.drop_append 5]
  decide

/-- The rewrite leaves a string ending in the googlemail suffix
unchanged. -/
theorem gmailRewrite_googlemail (x : List Char) :
    gmailRewrite (x ++ googlemailSuffix) = x ++ googlemailSuffix := by
  unfold gmailRewrite
  rw [if_neg (googlemail_drop_ne x)]

/-- Lowercasing distributes over concatenation. -/
theorem pyLower_append (x y : List Char) :
    pyLower (x ++ y) = pyLower x ++ pyLower y := List.map_append _ x y

/-- The gmail suffix is already lowercase. -/
theorem pyLower_gmailSuffix : pyLower gmailSuffix = gmailSuffix := by decide

/-- The googlemail suffix is already lowercase. -/
theorem pyLower_googlemailSuffix : pyLower googlemailSuffix = googlemailSuffix := by decide

/-- The string order is total. -/
theorem strLe_total : ∀ a b : List Char, (strLe a b || strLe b a) = true
  | [], _ => by simp [strLe]
  | _ :: _, [] => by simp [strLe]
  | a :: as, b :: bs => by
    by_cases hab : a = b
    · subst hab
      simp only [strLe, if_pos rfl]
      exact strLe_total as bs
    · rcases lt_or_gt_of_ne hab with h | h
      · simp [strLe, hab, h]
      · simp [strLe, hab, Ne.symm hab, h]

/-- The string order is transitive. -/
theorem strLe_trans : ∀ a b c : List Char,
    strLe a b = true → strLe b c = true → strLe a c = true
  | [], _, _ => fun _ _ => rfl
  | _ :: _, [], _ => fun h _ => by simp [strLe] at h
  | _ :: _, _ :: _, [] => fun _ h => by simp [strLe] at h
  | a :: as, b :: bs, c :: cs => fun hab hbc => by
    by_cases h1 : a = b <;> by_cases h2 : b = c
    · subst h1; subst h2
      simp only [strLe, if_pos rfl] at hab hbc ⊢
      exact strLe_trans as bs cs hab hbc
    · subst h1
      simp only [strLe, if_neg h2] at hbc ⊢
      exact hbc
    · subst h2
      simp only [strLe, if_neg h1] at hab ⊢
      exact hab
    · simp only [strLe, if_neg h1, if_neg h2, decide_eq_true_eq] at hab hbc
      have hac : a < c := lt_trans hab hbc
      have hne : a ≠ c := ne_of_lt hac
      simp [strLe, hne, hac]

/-- A Python stable sort by a string key produces a list that is pairwise
ordered under the key and a permutation of its input. -/
theorem pySortBy_sorted {α : Type} (key : α → List Char) (l : List α) :
    (pySortBy key l).Pairwise (fun x y => strLe (key x) (key y) = true) ∧
      (pySortBy key l).Perm l :=
  ⟨List.sorted_mergeSort
      (fun a b c hab hbc => strLe_trans (key a) (key b) (key c) hab hbc)
      (fun a b => strLe_total (key a) (key b)) l,
    List.mergeSort_perm l _⟩

/-- A monadic map over Option returns none as soon as some element maps to
none. -/
theorem mapOptM_eq_none_of_mem {α β : Type} (f : α → Option β) :
    ∀ (l : List α) (x : α), x ∈ l → f x = none → mapOptM f l = none := by
  intro l
  induction l with
  | nil => intro x hx; cases hx
  | cons a t ih =>
    intro x hx hfx
    rcases List.mem_cons.mp hx with h | h
    · subst h
      simp [mapOptM, hfx]
    · cases hfa : f a with
      | none => simp [mapOptM, hfa]
      | some b => simp [mapOptM, hfa, ih x h hfx]

/-- The executable suffix test of the rewrite agrees with the suffix
relation on lists. -/
theorem gmail_drop_iff (e : List Char) :
    e.drop (e.length - gmailSuffix.length) = gmailSuffix ↔ gmailSuffix <:+ e := by
  constructor
  · intro h
    have ht := List.take_append_drop (e.length - gmailSuffix.length) e
    rw [h] at ht
    exact ⟨e.take (e.length - gmailSuffix.length), ht⟩
  · rintro ⟨t, rfl⟩
    rw [List.length_append]
    have h : t.length + gmailSuffix.length - gmailSuffix.length = t.length := by omega
    rw [h, List.drop_left]

/-- C9: the gmail-to-googlemail suffix rewrite is idempotent, since a
rewritten address ends in the googlemail suffix and no longer ends in the
gmail suffix, and any address not ending in the gmail suffix is returned
unchanged. -/
theorem gmailRewrite_idempotent (e : List Char) :
    gmailRewrite (gmailRewrite e) = gmailRewrite e ∧
      (¬ gmailSuffix <:+ e → gmailRewrite e = e) := by
  constructor
  · by_cases h : e.drop (e.length - gmailSuffix.length) = gmailSuffix
    · have h1 : gmailRewrite e
          = e.take (e.length - gmailSuffix.length) ++ googlemailSuffix := by
        unfold gmailRewrite
        rw [if_pos h]
      rw [h1, gmailRewrite_googlemail]
    · have h1 : gmailRewrite e = e := by
        unfold gmailRewrite
        rw [if_neg h]
      rw [h1, h1]
  · intro hn
    have h : ¬ e.drop (e.length - gmailSuffix.length) = gmailSuffix :=
      fun hh => hn ((gmail_drop_iff e).mp hh)
    unfold gmailRewrite
    rw [if_neg h]

/-- Witness for C9 at the concrete address x@y.de, which does not end in
the gmail suffix. -/
theorem gmailRewrite_idempotent_witness :
    gmailRewrite (gmailRewrite "x@y.de".data) = gmailRewrite "x@y.de".data ∧
      gmailRewrite "x@y.de".data = "x@y.de".data :=
  ⟨(gmailRewrite_idempotent "x@y.de".data).1,
   (gmailRewrite_idempotent "x@y.de".data).2 (by decide)⟩

/-- C4: alias matching is asymmetric and applied to the roster side only:
a roster member whose email is a local part followed by the gmail suffix
matches a group record carrying the same local part with the googlemail
suffix, while a roster member with the googlemail spelling never matches a
group record with the gmail spelling. -/
theorem alias_rewrite_asymmetric (lp : List Char) (m : MyAEGEEMember) (g : GSuiteMember) :
    (m.user.email = lp ++ gmailSuffix → g.email = lp ++ googlemailSuffix →
        groupEmailMatch m g = true) ∧
    (m.user.email = lp ++ googlemailSuffix → g.email = lp ++ gmailSuffix →
        groupEmailMatch m g = false) := by
  have h15 : googlemailSuffix.length = 15 := by decide
  have h10 : gmailSuffix.length = 10 := by decide
  constructor
  · intro hm hg
    have h2 : gmailRewrite (pyLower m.user.email) = pyLower g.email := by
      rw [hm, hg, pyLower_append, pyLower_append, pyLower_gmailSuffix,
        pyLower_googlemailSuffix, gmailRewrite_append]
    unfold groupEmailMatch
    rw [decide_eq_true h2]
    simp
  · intro hm hg
    have hlen1 : pyLower m.user.email ≠ pyLower g.email := by
      rw [hm, hg, pyLower_append, pyLower_append, pyLower_gmailSuffix,
        pyLower_googlemailSuffix]
      intro h
      have hl := congrArg List.length h
      simp only [List.length_append] at hl
      rw [h15, h10] at hl
      omega
    have hlen2 : gmailRewrite (pyLower m.user.email) ≠ pyLower g.email := by
      rw [hm, hg, pyLower_append, pyLower_append, pyLower_gmailSuffix,
        pyLower_googlemailSuffix, gmailRewrite_googlemail]
      intro h
      have hl := congrArg List.length h
      simp only [List.length_append] at hl
      rw [h15, h10] at hl
      omega
    unfold groupEmailMatch
    rw [decide_eq_false hlen1, decide_eq_false hlen2]
    rfl

/-- Witness for C4 at local part user: user@gmail.com matches
user@googlemail.com, and user@googlemail.com does not match
user@gmail.com. -/
theorem alias_rewrite_asymmetric_witness :
    groupEmailMatch c4MemberG c4GroupGm = true ∧
      groupEmailMatch c4MemberGm c4GroupG = false :=
  ⟨(alias_rewrite_asymmetric "user".data c4MemberG c4GroupGm).1 (by decide) (by decide),
   (alias_rewrite_asymmetric "user".data c4MemberGm c4GroupG).2 (by decide) (by decide)⟩

/-- C1: a roster member appears in the missing-from-group report exactly
when no group record passes the email test (exact lowercased equality or
equality after alias-normalizing the member email), and on the end-to-end
scenario with roster a@x.de, b@x.de and group a@x.de the report is exactly
the b@x.de member with 1 of 2 members matched. -/
theorem missing_from_group_spec :
    (∀ (roster : List MyAEGEEMember) (group : List GSuiteMember) (m : MyAEGEEMember),
        m ∈ membersMissing roster group ↔
          m ∈ roster ∧ ∀ g ∈ group, groupEmailMatch m g = false) ∧
    (membersMissing exRoster exGroup = [exMemberB] ∧
      exRoster.length - (membersMissing exRoster exGroup).length = 1 ∧
      exRoster.length = 2) := by
  constructor
  · intro roster group m
    simp [membersMissing, List.mem_filter, List.any_eq_false]
  · exact ⟨by decide, by decide, by decide⟩

/-- C10: each missing or extra list of the five report passes is a
subsequence of its input collection, so the printed matched counter, total
minus unmatched length, lies between 0 and the input size. -/
theorem reports_are_sublists (roster : List MyAEGEEMember)
    (group actives : List GSuiteMember) (users : List GSuiteUser) :
    ((membersMissing roster group).Sublist roster ∧
      (membersExtra roster group).Sublist group ∧
      (activesMissing roster users).Sublist roster ∧
      (activesExtra roster users).Sublist users ∧
      (activesGroupMissing users actives).Sublist users) ∧
    (0 ≤ (roster.length : ℤ) - ((membersMissing roster group).length : ℤ) ∧
      (roster.length : ℤ) - ((membersMissing roster group).length : ℤ) ≤ (roster.length : ℤ) ∧
      0 ≤ (group.length : ℤ) - ((membersExtra roster group).length : ℤ) ∧
      (group.length : ℤ) - ((membersExtra roster group).length : ℤ) ≤ (group.length : ℤ) ∧
      0 ≤ (roster.length : ℤ) - ((activesMissing roster users).length : ℤ) ∧
      (roster.length : ℤ) - ((activesMissing roster users).length : ℤ) ≤ (roster.length : ℤ) ∧
      0 ≤ (users.length : ℤ) - ((activesExtra roster users).length : ℤ) ∧
      (users.length : ℤ) - ((activesExtra roster users).length : ℤ) ≤ (users.length : ℤ) ∧
      0 ≤ (users.length : ℤ) - ((activesGroupMissing users actives).length : ℤ) ∧
      (users.length : ℤ) - ((activesGroupMissing users actives).length : ℤ) ≤ (users.length : ℤ)) := by
  have s1 : (membersMissing roster group).Sublist roster := List.filter_sublist roster
  have s2 : (membersExtra roster group).Sublist group := List.filter_sublist group
  have s3 : (activesMissing roster users).Sublist roster := List.filter_sublist roster
  have s4 : (activesExtra roster users).Sublist users := List.filter_sublist users
  have s5 : (activesGroupMissing users actives).Sublist users := List.filter_sublist users
  have l1 := s1.length_le
  have l2 := s2.length_le
  have l3 := s3.length_le
  have l4 := s4.length_le
  have l5 := s5.length_le
  exact ⟨⟨s1, s2, s3, s4, s5⟩, by omega⟩

/-- C3: the fuzzy-name threshold of actives_sync is strict: without email
overlap, a name ratio of exactly 9/10 leaves the member unmatched and any
ratio strictly above 9/10 matches the member. -/
theorem fuzzy_threshold_strict (m : MyAEGEEMember) (u : GSuiteUser)
    (hne : ∀ e ∈ u.emails, m.user.email ≠ e.address) :
    (pyRatio (memberFullName m) u.name.fullName = 9/10 →
        activesMissing [m] [u] = [m]) ∧
    (9/10 < pyRatio (memberFullName m) u.name.fullName →
        activesMissing [m] [u] = []) := by
  have he : activesEmailMatch m [u] = false := by
    simp only [activesEmailMatch, List.any_cons, List.any_nil, Bool.or_false]
    simp only [List.any_eq_false, decide_eq_true_eq]
    exact hne
  constructor
  · intro hr
    have hn : activesNameMatch m [u] = false := by
      simp only [activesNameMatch, List.any_cons, List.any_nil, Bool.or_false]
      exact decide_eq_false (by rw [hr]; exact lt_irrefl _)
    simp [activesMissing, he, hn]
  · intro hr
    have hn : activesNameMatch m [u] = true := by
      simp only [activesNameMatch, List.any_cons, List.any_nil, Bool.or_false]
      exact decide_eq_true hr
    simp [activesMissing, hn]

/-- Witness for C3: the member abcd efghi against the user abcd efghX is
at ratio exactly 9/10 and is reported missing; the member Jon Smith
against John Smith is at ratio 18/19 above 9/10 and is not reported. -/
theorem fuzzy_threshold_strict_witness :
    activesMissing [c3MemberEq] [c3UserEq] = [c3MemberEq] ∧
      activesMissing [c3MemberGt] [c3UserGt] = [] :=
  ⟨(fuzzy_threshold_strict c3MemberEq c3UserEq (by decide)).1 (by
      rw [pyRatio_eq _ _ 9 20 (by decide) (by decide) (by decide)]
      norm_num),
   (fuzzy_threshold_strict c3MemberGt c3UserGt (by decide)).2 (by
      rw [pyRatio_eq _ _ 9 19 (by decide) (by decide) (by decide)]
      norm_num)⟩

/-- Counterexample to C2 as stated: the alias-normalized email of the
member c@gmail.com equals the only address of the directory user, yet the
actives pass reports the member as missing, because the alias strategy is
absent there. -/
theorem missing_account_alias_cex :
    gmailRewrite c2Member.user.email = "c@googlemail.com".data ∧
    (∃ e ∈ c2User.emails, gmailRewrite c2Member.user.email = e.address) ∧
    activesMissing [c2Member] [c2User] = [c2Member] := by
  refine ⟨by decide, by decide, ?_⟩
  have he : activesEmailMatch c2Member [c2User] = false := by decide
  have hr : pyRatio (memberFullName c2Member) c2User.name.fullName = 1/5 := by
    rw [pyRatio_eq _ _ 1 10 (by decide) (by decide) (by decide)]
    norm_num
  have hn : activesNameMatch c2Member [c2User] = false := by
    simp only [activesNameMatch, List.any_cons, List.any_nil, Bool.or_false]
    exact decide_eq_false (by rw [hr]; norm_num)
  simp [activesMissing, he, hn]

/-- C2 as amended: a roster member is collected as unmatched by the
missing-directory-account pass exactly when no directory user exposes an
address exactly equal to the member email and no directory user name is at
ratio strictly above 9/10 with the member name; the alias strategy is not
part of this pass. -/
theorem missing_account_two_strategies :
    ∀ (roster : List MyAEGEEMember) (users : List GSuiteUser) (m : MyAEGEEMember),
      m ∈ activesMissing roster users ↔
        m ∈ roster ∧
          (∀ u ∈ users, ∀ e ∈ u.emails, m.user.email ≠ e.address) ∧
          (∀ u ∈ users, ¬(9/10 < pyRatio (memberFullName m) u.name.fullName)) := by
  intro roster users m
  simp [activesMissing, activesEmailMatch, activesNameMatch, List.mem_filter,
    List.any_eq_false]

/-- Counterexample to C5 as stated: the member email A@x.de equals the
directory address a@x.de up to letter case, yet the actives pass reports
the member missing, since its exact-email comparison is case-sensitive. -/
theorem exact_match_case_cex :
    pyLower c5Member.user.email = pyLower "a@x.de".data ∧
    (∃ e ∈ c5User.emails, pyLower c5Member.user.email = pyLower e.address) ∧
    activesMissing [c5Member] [c5User] = [c5Member] := by
  refine ⟨by decide, by decide, ?_⟩
  have he : activesEmailMatch c5Member [c5User] = false := by decide
  have hr : pyRatio (memberFullName c5Member) c5User.name.fullName = 1/5 := by
    rw [pyRatio_eq _ _ 1 10 (by decide) (by decide) (by decide)]
    norm_num
  have hn : activesNameMatch c5Member [c5User] = false := by
    simp only [activesNameMatch, List.any_cons, List.any_nil, Bool.or_false]
    exact decide_eq_false (by rw [hr]; norm_num)
  simp [activesMissing, he, hn]

/-- C5 as amended: in members_sync the email comparison is lowercased on
both sides, so equality up to case guarantees the member is not reported
missing from the group; in actives_sync the exact-email comparison is
case-sensitive, and exact equality with one of the user addresses
guarantees the member is not reported missing. -/
theorem exact_match_case_amended :
    (∀ (roster : List MyAEGEEMember) (group : List GSuiteMember)
        (m : MyAEGEEMember) (g : GSuiteMember),
        m ∈ roster → g ∈ group → pyLower m.user.email = pyLower g.email →
          m ∉ membersMissing roster group) ∧
    (∀ (roster : List MyAEGEEMember) (users : List GSuiteUser)
        (m : MyAEGEEMember) (u : GSuiteUser),
        m ∈ roster → u ∈ users → (∃ e ∈ u.emails, m.user.email = e.address) →
          m ∉ activesMissing roster users) := by
  constructor
  · intro roster group m g hm hg heq hmem
    have h := (List.mem_filter.mp hmem).2
    have h2 : group.any (fun g => groupEmailMatch m g) = false := by
      simpa using h
    apply List.any_eq_false.mp h2 g hg
    unfold groupEmailMatch
    rw [decide_eq_true heq]
    simp
  · intro roster users m u hm hu hex hmem
    obtain ⟨e, he, heq⟩ := hex
    have h := (List.mem_filter.mp hmem).2
    have h2 : activesEmailMatch m users = true := by
      unfold activesEmailMatch
      rw [List.any_eq_true]
      exact ⟨u, hu, by rw [List.any_eq_true]; exact ⟨e, he, decide_eq_true heq⟩⟩
    rw [h2] at h
    simp at h

/-- Witness for the amended C5: the member A@x.de is not missing from a
group holding a@x.de, and a member with an exact address match is not
reported by the actives pass. -/
theorem exact_match_case_amended_witness :
    c5Member ∉ membersMissing [c5Member] [c5Group] ∧
      c5MemberExact ∉ activesMissing [c5MemberExact] [c5User] :=
  ⟨exact_match_case_amended.1 [c5Member] [c5Group] c5Member c5Group
      (by decide) (by decide) (by decide),
   exact_match_case_amended.2 [c5MemberExact] [c5User] c5MemberExact c5User
      (by decide) (by decide) (by decide)⟩

/-- C6: a directory record whose email, or any of whose addresses, is on
the fixed exclusion list never appears in the extra-in-group or
extra-accounts report, regardless of the roster. -/
theorem excluded_never_extra (roster : List MyAEGEEMember)
    (group : List GSuiteMember) (users : List GSuiteUser) :
    (∀ g ∈ membersExtra roster group, g.email ∉ EXTRA_EXCLUDED) ∧
      (∀ u ∈ activesExtra roster users, ∀ e ∈ u.emails, e.address ∉ EXTRA_EXCLUDED) := by
  constructor
  · intro g hg hin
    have h := (List.mem_filter.mp hg).2
    rw [Bool.and_eq_true] at h
    have h2 : decide (g.email ∈ EXTRA_EXCLUDED) = false := by simpa using h.1
    exact of_decide_eq_false h2 hin
  · intro u hu e he hin
    have h := (List.mem_filter.mp hu).2
    simp only [Bool.and_eq_true] at h
    obtain ⟨h1, _⟩ := h
    have h2 : ((u.emails.map (fun e => e.address)).any
        (fun e => decide (e ∈ EXTRA_EXCLUDED))) = false := by
      simpa using h1
    have h3 := List.any_eq_false.mp h2 e.address (List.mem_map.mpr ⟨e, he, rfl⟩)
    exact h3 (decide_eq_true hin)

/-- Witness for C6: a group record and a directory user outside the
exclusion list do appear in the extra reports, and their addresses are
indeed not excluded. -/
theorem excluded_never_extra_witness :
    c6Group.email ∉ EXTRA_EXCLUDED ∧
      (∀ e ∈ c6User.emails, e.address ∉ EXTRA_EXCLUDED) :=
  ⟨(excluded_never_extra [] [c6Group] [c6User]).1 c6Group (by decide),
   (excluded_never_extra [] [c6Group] [c6User]).2 c6User (by decide)⟩

/-- Counterexample to C7 as stated: with a directory user lacking the
emails field the matching pass raises KeyError (returns none) instead of
treating the record as never matching, while the same roster against a
well-formed collection does return a report. -/
theorem malformed_record_cex :
    rawActivesMissing [c7Member] [c7BadUser] = none ∧
      rawActivesMissing [c7Member] [] = some [c7Member] :=
  ⟨by decide, by decide⟩

/-- C7 as amended: whenever some directory user record lacks the emails
field and the roster is nonempty, the matching pass of new_members.py
raises KeyError (returns none), aborting the run instead of reporting the
remaining records. -/
theorem malformed_record_raises (roster : List RawMember)
    (users : List RawGSuiteUser) (u : RawGSuiteUser)
    (hu : u ∈ users) (hemails : u.emails = none) (hne : roster ≠ []) :
    rawActivesMissing roster users = none := by
  obtain ⟨m, rest, rfl⟩ : ∃ m rest, roster = m :: rest := by
    cases roster with
    | nil => exact absurd rfl hne
    | cons m rest => exact ⟨m, rest, rfl⟩
  have hone : rawEmailMatchUser m u = none := by
    unfold rawEmailMatchUser
    rw [hemails]
    rfl
  have hmap : mapOptM (rawEmailMatchUser m) users = none :=
    mapOptM_eq_none_of_mem _ users u hu hone
  have hem : rawEmailMatch m users = none := by
    unfold rawEmailMatch
    rw [hmap]
    rfl
  unfold rawActivesMissing
  simp only [List.foldlM_cons]
  simp [hem]

/-- Witness for the amended C7: one malformed user among the directory
users aborts the pass even though a well-formed user follows it. -/
theorem malformed_record_raises_witness :
    rawActivesMissing [c7Member]
        [c7BadUser, ⟨some [⟨"z@x.de".data⟩], some ⟨some "Zz Yy".data⟩⟩] = none :=
  malformed_record_raises [c7Member]
    [c7BadUser, ⟨some [⟨"z@x.de".data⟩], some ⟨some "Zz Yy".data⟩⟩]
    c7BadUser (by decide) rfl (by decide)

/-- Counterexample to C8 as stated: the legacy members_sync prints the
missing report in roster order, so with roster b@x.de, a@x.de and an
empty group the printed list starts with b@x.de before a@x.de, not in
alphabetical email order. -/
theorem print_order_cex :
    legacyMembersPrintOrder [exMemberB, exMemberA] [] = [exMemberB, exMemberA] ∧
      strLe exMemberB.user.email exMemberA.user.email = false :=
  ⟨by decide, by decide⟩

/-- C8 as amended: in the gsuitedirsync_aegee package, print_users prints
roster members sorted by user email, directory users sorted by
primaryEmail and group records sorted by email, each output being a
permutation of its input, so identical inputs print identically; the
legacy top-level script instead prints the missing list in roster
order. -/
theorem print_order_sorted (ms : List MyAEGEEMember) (us : List GSuiteUser)
    (gs : List GSuiteMember) :
    ((printMembersOrder ms).Pairwise
        (fun x y => strLe x.user.email y.user.email = true) ∧
      (printMembersOrder ms).Perm ms) ∧
    ((printUsersOrder us).Pairwise
        (fun x y => strLe x.primaryEmail y.primaryEmail = true) ∧
      (printUsersOrder us).Perm us) ∧
    ((printGroupOrder gs).Pairwise
        (fun x y => strLe x.email y.email = true) ∧
      (printGroupOrder gs).Perm gs) :=
  ⟨pySortBy_sorted _ ms, pySortBy_sorted _ us, pySortBy_sorted _ gs⟩
